import Mathlib

/-!
# Verification of the Vultr quant-server manager (`vultr_manager.py`)

A shallow embedding of the lifecycle manager's core logic:

* the request wrapper `_request` (retry policy, 4xx handling, backoff),
* the snapshot date parsing and retention pruning (`prune_old_snapshots`),
* snapshot selection (`latest_backup_snapshot`),
* the orchestration actions (`action_start`, `action_stop`) at the level of
  API-call event traces, with Python's exception hierarchy made explicit
  (`SystemExit` derives from `BaseException`, not `Exception`).

Machine integers do not occur; Python integers are modelled as `Int`/`Nat`.
Time is modelled at second granularity: an instant is an `Int` counting
seconds, where the instant `86400 * toOrdinal y m d` is midnight UTC of the
proleptic-Gregorian date `(y, m, d)` (`toOrdinal` matches Python's
`date.toordinal`).
-/

namespace Vultr

/-- The fixed instance label constant `LABEL` of the source. -/
def LABEL : String := "Quant-Trading-Server"

/-! ## Executable string primitives

Python string operations used by the program (`<` comparison for `sort`,
`startswith`, `replace`, `upper`) re-implemented by structural recursion
over `List Char` so that every definition evaluates inside the kernel.
Python compares strings lexicographically by code point, exactly as
`ltChars` below. -/

/-- Lexicographic strict comparison of character lists by code point
(Python's `<` on `str`). -/
def ltChars : List Char → List Char → Bool
  | _, [] => false
  | [], _ :: _ => true
  | a :: as, b :: bs =>
    if a < b then true
    else if b < a then false
    else ltChars as bs

/-- Python's `<` on strings. -/
def strLt (a b : String) : Bool := ltChars a.data b.data

/-- Whether the first list is a prefix of the second
(Python's `str.startswith`). -/
def isPrefOf : List Char → List Char → Bool
  | [], _ => true
  | _ :: _, [] => false
  | p :: ps, c :: cs => p == c && isPrefOf ps cs

/-- The backup description marker `"Quant-Backup-"` as characters. -/
def tagChars : List Char := "Quant-Backup-".data

/-- Python's `str.startswith("Quant-Backup-")`. -/
def hasBackupTag (s : String) : Bool := isPrefOf tagChars s.data

/-- Fuel-driven worker for `removeTag`: scan left to right; at each
position where the 13-character marker occurs, skip it (replacement by
the empty string); otherwise keep the character.  The fuel dominates the
list length, so the `0, cs` case is never reached from `removeTag`. -/
def removeTagF : Nat → List Char → List Char
  | 0, cs => cs
  | _ + 1, [] => []
  | fuel + 1, c :: cs =>
    if isPrefOf tagChars (c :: cs) then removeTagF fuel (cs.drop 12)
    else c :: removeTagF fuel cs

/-- Python's `s.replace("Quant-Backup-", "")`: every (leftmost,
non-overlapping) occurrence of the marker is removed. -/
def removeTag (cs : List Char) : List Char := removeTagF cs.length cs

/-- ASCII upper-casing of one character (`str.upper` on the ASCII method
names that occur in the program). -/
def upperAsciiChar (c : Char) : Char :=
  if 'a' ≤ c ∧ c ≤ 'z' then Char.ofNat (c.toNat - 32) else c

/-- Python's `method.upper()`. -/
def methodUpper (m : String) : String := ⟨m.data.map upperAsciiChar⟩

/-- A snapshot record as returned by the provider: the three fields the
program reads (`id`, `description`, `status`). -/
structure Snapshot where
  id : String
  description : String
  status : String
deriving DecidableEq, Repr

/-- An instance record as returned by the provider: the fields the
program reads. -/
structure Instance where
  id : String
  label : String
  status : String
  power_status : String
  main_ip : String
deriving DecidableEq, Repr

/-! ## The request wrapper `_request` -/

/-- One attempt's result at the HTTP level: either a response with a
status code, or a network-level failure (a `requests.RequestException`). -/
inductive HttpResp where
  | status (code : Nat)
  | netError
deriving DecidableEq, Repr

/-- Outcome of `_request`, remembering on which attempt it ended:
`success k` — attempt `k` returned a code in {200, 201, 202, 204};
`fatalClient k` — attempt `k` returned a 4xx code and the code raised
`SystemExit(1)` at once; `fatalExhausted r` — all `r` attempts were
consumed without success and the code raised `SystemExit(1)`. -/
inductive ReqOutcome where
  | success (attempt : Nat)
  | fatalClient (attempt : Nat)
  | fatalExhausted (retries : Nat)
deriving DecidableEq, Repr

/-- Number of HTTP attempts actually performed for a given outcome. -/
def attemptsOf : ReqOutcome → Nat
  | .success a => a
  | .fatalClient a => a
  | .fatalExhausted r => r

/-- A response is retryable when it is neither a success code nor a 4xx:
network errors and e.g. 5xx codes fall through to the next attempt. -/
def retryable : HttpResp → Bool
  | .netError => true
  | .status c => !(c = 200 || c = 201 || c = 202 || c = 204) && !(400 ≤ c && c < 500)

/-- The `for attempt in range(1, retries + 1)` loop body of `_request`,
started at attempt number `attempt`.  `resps k` is the HTTP-level result of
the `k`-th attempt.  Returns the outcome together with the list of back-off
sleeps performed (`time.sleep(10 * attempt)` runs only when
`attempt < retries`). -/
def requestLoop (resps : Nat → HttpResp) (retries : Nat) :
    Nat → Nat → ReqOutcome × List Nat
  | 0, _ => (.fatalExhausted retries, [])
  | fuel + 1, attempt =>
    match resps attempt with
    | .status c =>
      if c = 200 ∨ c = 201 ∨ c = 202 ∨ c = 204 then
        (.success attempt, [])
      else if 400 ≤ c ∧ c < 500 then
        (.fatalClient attempt, [])
      else
        let rest := requestLoop resps retries fuel (attempt + 1)
        if attempt < retries then (rest.1, 10 * attempt :: rest.2) else rest
    | .netError =>
      let rest := requestLoop resps retries fuel (attempt + 1)
      if attempt < retries then (rest.1, 10 * attempt :: rest.2) else rest

/-- The loop of `_request` entered at attempt number `attempt`: the
number of remaining iterations of `range(1, retries + 1)` is
`retries + 1 - attempt`. -/
def requestGo (resps : Nat → HttpResp) (retries attempt : Nat) :
    ReqOutcome × List Nat :=
  requestLoop resps retries (retries + 1 - attempt) attempt

/-- `_request` itself: POST/PATCH have their retry budget forced to 1
before the loop (`if method.upper() in ("POST", "PATCH"): retries = 1`). -/
def pyRequest (method : String) (resps : Nat → HttpResp) (retries : Nat) :
    ReqOutcome × List Nat :=
  let retries :=
    if methodUpper method = "POST" ∨ methodUpper method = "PATCH" then 1
    else retries
  requestGo resps retries 1

/-! ## Date parsing: CPython `datetime.strptime(s, "%Y%m%d")`

CPython compiles `"%Y%m%d"` to the regex
`(?P<Y>\d\d\d\d)(?P<m>1[0-2]|0[1-9]|[1-9])(?P<d>3[01]|[12]\d|0[1-9]|[1-9])`,
takes the first match in backtracking order (alternatives tried left to
right), raises `ValueError` when there is no match or when characters
remain unconsumed, and finally constructs `datetime(y, m, d)`, which
raises `ValueError` for day-out-of-range or year 0. -/

/-- Numeric value of a decimal digit character. -/
def digitVal (c : Char) : Nat := c.toNat - '0'.toNat

/-- The `%m` regex alternatives `1[0-2] | 0[1-9] | [1-9]`, in preference
order, each paired with the remaining input. -/
def mCands : List Char → List (Nat × List Char)
  | r =>
    (match r with
     | '1' :: c :: rest =>
       if '0' ≤ c ∧ c ≤ '2' then [(10 + digitVal c, rest)] else []
     | _ => []) ++
    (match r with
     | '0' :: c :: rest =>
       if '1' ≤ c ∧ c ≤ '9' then [(digitVal c, rest)] else []
     | _ => []) ++
    (match r with
     | c :: rest =>
       if '1' ≤ c ∧ c ≤ '9' then [(digitVal c, rest)] else []
     | _ => [])

/-- The `%d` regex alternatives `3[01] | [12]\d | 0[1-9] | [1-9]`, in
preference order. -/
def dCands : List Char → List (Nat × List Char)
  | r =>
    (match r with
     | '3' :: c :: rest =>
       if '0' ≤ c ∧ c ≤ '1' then [(30 + digitVal c, rest)] else []
     | _ => []) ++
    (match r with
     | c1 :: c2 :: rest =>
       if ('1' ≤ c1 ∧ c1 ≤ '2') ∧ ('0' ≤ c2 ∧ c2 ≤ '9') then
         [(10 * digitVal c1 + digitVal c2, rest)] else []
     | _ => []) ++
    (match r with
     | '0' :: c :: rest =>
       if '1' ≤ c ∧ c ≤ '9' then [(digitVal c, rest)] else []
     | _ => []) ++
    (match r with
     | c :: rest =>
       if '1' ≤ c ∧ c ≤ '9' then [(digitVal c, rest)] else []
     | _ => [])

/-- First regex match of `%m%d` on `r` in backtracking order: the first
month alternative that admits any day alternative wins, paired with the
first such day alternative. -/
def firstMD (r : List Char) : Option (Nat × Nat × List Char) :=
  (mCands r).findSome? fun mr =>
    (dCands mr.2).head?.map fun dr => (mr.1, dr.1, dr.2)

/-- Gregorian leap year. -/
def isLeap (y : Nat) : Bool := (y % 4 = 0 ∧ y % 100 ≠ 0) ∨ y % 400 = 0

/-- Days in a month of a given year. -/
def daysInMonth (y m : Nat) : Nat :=
  if m = 2 then (if isLeap y then 29 else 28)
  else if m = 4 ∨ m = 6 ∨ m = 9 ∨ m = 11 then 30
  else 31

/-- Days in the months of year `y` strictly before month `m`
(months numbered from 1). -/
def daysBeforeMonth (y m : Nat) : Nat :=
  ((List.range (m - 1)).map fun i => daysInMonth y (i + 1)).sum

/-- Python's `date.toordinal`: day number of `(y, m, d)` in the proleptic
Gregorian calendar, with `toOrdinal 1 1 1 = 1`. -/
def toOrdinal (y m d : Nat) : Nat :=
  365 * (y - 1) + (y - 1) / 4 - (y - 1) / 100 + (y - 1) / 400 +
    daysBeforeMonth y m + d

/-- `datetime.strptime(s, "%Y%m%d")`: four digit characters for `%Y`
(year 0 rejected by the `datetime` constructor), then the first `%m%d`
regex match; the whole string must be consumed and the day must exist in
the parsed month.  Returns `none` exactly when CPython raises
`ValueError`. -/
def parseYMD (s : String) : Option (Nat × Nat × Nat) :=
  match s.data with
  | c1 :: c2 :: c3 :: c4 :: rest =>
    if c1.isDigit ∧ c2.isDigit ∧ c3.isDigit ∧ c4.isDigit then
      let y := 1000 * digitVal c1 + 100 * digitVal c2 + 10 * digitVal c3 +
        digitVal c4
      match firstMD rest with
      | some (m, d, leftover) =>
        if leftover = [] ∧ 1 ≤ y ∧ d ≤ daysInMonth y m then
          some (y, m, d)
        else none
      | none => none
    else none
  | _ => none

/-- `(datetime.utcnow() - snap_date).days` where `snap_date` is midnight
of `(y, m, d)` and `now` is the current instant in seconds on the
`toOrdinal` scale: `timedelta.days` is floor division by 86400. -/
def ageDays (now : Int) (y m d : Nat) : Int :=
  Int.fdiv (now - 86400 * (toOrdinal y m d : Int)) 86400

/-! ## Sorting snapshots by description, descending

`backups.sort(key=lambda s: s["description"], reverse=True)` is a stable
descending sort: among equal descriptions the original order is kept. -/

/-- Insert `x` into a list already sorted by description descending,
placing `x` before the first element whose description is not above it
(so `x`, which comes earlier in the original list, precedes later
elements with an equal description). -/
def insertD (x : Snapshot) : List Snapshot → List Snapshot
  | [] => [x]
  | y :: ys =>
    if strLt x.description y.description then y :: insertD x ys
    else x :: y :: ys

/-- Stable insertion sort by description, descending — the effect of
Python's `list.sort(key=..., reverse=True)`. -/
def sortDescByDescription : List Snapshot → List Snapshot
  | [] => []
  | x :: xs => insertD x (sortDescByDescription xs)

/-! ## Snapshot selection and pruning -/

/-- The filter of `latest_backup_snapshot`: description starts with
`"Quant-Backup-"` and status is `"complete"`. -/
def backupComplete (snaps : List Snapshot) : List Snapshot :=
  snaps.filter fun s => hasBackupTag s.description && s.status == "complete"

/-- `latest_backup_snapshot` applied to the provider's snapshot list:
filter, return `None` when empty, else sort descending by description and
return the first id. -/
def latest_backup_snapshot (snaps : List Snapshot) : Option String :=
  match sortDescByDescription (backupComplete snaps) with
  | [] => none
  | s :: _ => some s.id

/-- The filter of `prune_old_snapshots` (any status, unlike
`latest_backup_snapshot`). -/
def backupAny (snaps : List Snapshot) : List Snapshot :=
  snaps.filter fun s => hasBackupTag s.description

/-- The backup list of `prune_old_snapshots` after its descending sort. -/
def sortedBackups (snaps : List Snapshot) : List Snapshot :=
  sortDescByDescription (backupAny snaps)

/-- The suffix handed to `strptime`:
`snap["description"].replace("Quant-Backup-", "")` (Python's `replace`
removes every occurrence, not only the leading one). -/
def dateStrOf (s : Snapshot) : String :=
  ⟨removeTag s.description.data⟩

/-- Rule 1's per-snapshot test: parse the date suffix, and select the
snapshot when its age in whole days strictly exceeds `retain_days`;
a `ValueError` from parsing is swallowed (`except ValueError: pass`). -/
def ageSelect (now : Int) (retain_days : Int) (s : Snapshot) : Option String :=
  match parseYMD (dateStrOf s) with
  | some (y, m, d) => if ageDays now y m d > retain_days then some s.id else none
  | none => none

/-- Rule 1 of `prune_old_snapshots` over the sorted backup list: iterate
`backups[1:]` (the newest is skipped) and collect the ids selected by the
age test. -/
def rule1Ids (now : Int) (retain_days : Int) (backups : List Snapshot) :
    List String :=
  (backups.drop 1).filterMap (ageSelect now retain_days)

/-- Rule 2 of `prune_old_snapshots`: the ids of `backups[max_count:]`. -/
def rule2Ids (max_count : Nat) (backups : List Snapshot) : List String :=
  (backups.drop max_count).map Snapshot.id

/-- The deletion set `to_delete` built by `prune_old_snapshots` on the
snapshot list `snaps` at instant `now`: the union of the two rules applied
to the sorted backup list (membership in this list is set membership in
`to_delete`). -/
def prune_to_delete (now : Int) (retain_days : Int) (max_count : Nat)
    (snaps : List Snapshot) : List String :=
  rule1Ids now retain_days (sortedBackups snaps) ++
    rule2Ids max_count (sortedBackups snaps)

/-! ## Orchestration: `action_start` and `action_stop`

Python's exception hierarchy matters here: `SystemExit` (raised by
`_request` on fatal failure and by the poll loops on timeout/error)
derives from `BaseException`, **not** from `Exception`, so
`except Exception` in `action_stop` does not catch it. -/

/-- Kind of a raised Python exception: `SystemExit` versus an
`Exception`-derived error. -/
inductive ExcKind where
  | systemExit
  | exception
deriving DecidableEq, Repr

/-- Result of running a piece of Python code: normal return or a raised
exception of a given kind. -/
inductive Outcome (α : Type) where
  | ok (a : α)
  | raised (e : ExcKind)
deriving DecidableEq, Repr

/-- One iteration of a poll loop, from the environment's point of view:
either the GET request itself fails fatally inside `_request`
(raising `SystemExit`), or it returns a snapshot status string. -/
inductive PollStep where
  | reqFail
  | st (s : String)
deriving DecidableEq, Repr

/-- `wait_for_snapshot`: poll until `"complete"` (normal return),
`"error"` (fatal `SystemExit`), a fatal request failure, or deadline
expiry (the list of remaining poll iterations is exhausted — fatal
`SystemExit`).  Returns the outcome and the list of observed statuses. -/
def wait_for_snapshot : List PollStep → Outcome Unit × List String
  | [] => (.raised .systemExit, [])
  | .reqFail :: _ => (.raised .systemExit, [])
  | .st s :: rest =>
    if s = "complete" then (.ok (), [s])
    else if s = "error" then (.raised .systemExit, [s])
    else
      let r := wait_for_snapshot rest
      (r.1, s :: r.2)

/-- API-call events emitted by the actions, in program order. -/
inductive Ev where
  | listInstances
  | listSnapshots
  | createSnapshotCall
  | snapPoll (status : String)
  | destroyCall (id : String)
  | pruneCall
  | stopComplete
  | createInstanceCall
  | instPoll (status power : String)
deriving DecidableEq, Repr

/-- Whether an event mutates remote state (POST/DELETE-backed calls);
`pruneCall` stands for the pruning pass, which may issue DELETEs. -/
def isMutating : Ev → Bool
  | .createSnapshotCall => true
  | .destroyCall _ => true
  | .pruneCall => true
  | .createInstanceCall => true
  | _ => false

/-- `find_instance`: first instance whose label is `LABEL` and whose
status is not `"dead"`. -/
def find_instance (insts : List Instance) : Option Instance :=
  insts.find? fun i => i.label == LABEL && i.status != "dead"

/-- `_wait_for_instance`: poll until status `"active"` with power
`"running"`, or deadline expiry (fatal).  Returns the outcome and the
observed (status, power) pairs. -/
def wait_for_instance : List (String × String) → Outcome Unit × List (String × String)
  | [] => (.raised .systemExit, [])
  | sp :: rest =>
    if sp.1 = "active" ∧ sp.2 = "running" then (.ok (), [sp])
    else
      let r := wait_for_instance rest
      (r.1, sp :: r.2)

/-- `action_start` as an event-trace function.  `instPolls` supplies the
statuses observed by the activation poll loop when an instance has to be
created.  When a live labelled instance exists the function logs and
returns at once. -/
def action_start (insts : List Instance) (instPolls : List (String × String)) :
    Outcome Unit × List Ev :=
  match find_instance insts with
  | some _ => (.ok (), [.listInstances])
  | none =>
    let w := wait_for_instance instPolls
    (w.1, .listInstances :: .listSnapshots :: .createInstanceCall ::
      w.2.map fun sp => .instPoll sp.1 sp.2)

/-- `action_stop` as an event-trace function.  `createOk` tells whether
the snapshot-creation POST succeeds (a fatal `_request` failure there
raises `SystemExit`); `polls` drives `wait_for_snapshot`; `prune` is the
outcome of `prune_old_snapshots()`.  The `try/except Exception` around
pruning catches only `Exception`-derived failures: a `SystemExit` raised
inside pruning propagates and aborts the action. -/
def action_stop (insts : List Instance) (createOk : Bool)
    (polls : List PollStep) (prune : Outcome Unit) : Outcome Unit × List Ev :=
  match find_instance insts with
  | none => (.raised .systemExit, [.listInstances])
  | some inst =>
    if createOk then
      let w := wait_for_snapshot polls
      let t0 := Ev.listInstances :: Ev.createSnapshotCall ::
        w.2.map Ev.snapPoll
      match w.1 with
      | .raised e => (.raised e, t0)
      | .ok _ =>
        let t1 := t0 ++ [Ev.destroyCall inst.id]
        match prune with
        | .ok _ => (.ok (), t1 ++ [Ev.pruneCall, Ev.stopComplete])
        | .raised .exception => (.ok (), t1 ++ [Ev.pruneCall, Ev.stopComplete])
        | .raised .systemExit => (.raised .systemExit, t1 ++ [Ev.pruneCall])
    else (.raised .systemExit, [.listInstances, .createSnapshotCall])

/-- The outcome, as an exception kind, of a `_request` call made inside
`prune_old_snapshots` (for instance its initial `GET /snapshots`): a
non-success outcome is `raise SystemExit(1)` — which `except Exception`
does not catch. -/
def prune_request_outcome (resps : Nat → HttpResp) (retries : Nat) :
    Outcome Unit :=
  match (requestGo resps retries 1).1 with
  | .success _ => .ok ()
  | .fatalClient _ => .raised .systemExit
  | .fatalExhausted _ => .raised .systemExit

/-! ## Lemmas: the lexicographic comparison -/

theorem ltChars_irrefl (l : List Char) : ltChars l l = false := by
  induction l with
  | nil => rfl
  | cons c cs ih => simp [ltChars, lt_irrefl, ih]

theorem ltChars_asymm : ∀ (a b : List Char),
    ltChars a b = true → ltChars b a = false
  | _, [], h => by simp [ltChars] at h
  | [], _ :: _, _ => rfl
  | x :: xs, y :: ys, h => by
    by_cases hxy : x < y
    · have hyx : ¬ y < x := asymm hxy
      simp [ltChars, hxy, hyx]
    · by_cases hyx : y < x
      · simp [ltChars, hxy, hyx] at h
      · have h' : ltChars xs ys = true := by
          simpa [ltChars, hxy, hyx] using h
        simpa [ltChars, hxy, hyx] using ltChars_asymm xs ys h'

theorem ltChars_nil_right (a : List Char) : ltChars a [] = false := by
  cases a <;> simp [ltChars]

theorem ltChars_nlt_trans : ∀ (a b c : List Char),
    ltChars a b = false → ltChars b c = false → ltChars a c = false
  | a, _, [], _, _ => ltChars_nil_right a
  | _, [], _ :: _, _, h2 => by simp [ltChars] at h2
  | [], _ :: _, _ :: _, h1, _ => by simp [ltChars] at h1
  | x :: xs, y :: ys, z :: zs, h1, h2 => by
    by_cases hxy : x < y
    · simp [ltChars, hxy] at h1
    by_cases hyz : y < z
    · simp [ltChars, hyz] at h2
    have hzx : z ≤ x := le_trans (le_of_not_lt hyz) (le_of_not_lt hxy)
    have hnxz : ¬ x < z := not_lt_of_ge hzx
    by_cases hzx' : z < x
    · simp [ltChars, hnxz, hzx']
    · have hxz : x = z := le_antisymm (le_of_not_lt hzx') hzx
      have hxy' : x = y := le_antisymm (hxz ▸ le_of_not_lt hyz) (le_of_not_lt hxy)
      subst hxz; subst hxy'
      have h1' : ltChars xs ys = false := by
        simpa [ltChars, lt_irrefl] using h1
      have h2' : ltChars ys zs = false := by
        simpa [ltChars, lt_irrefl] using h2
      simpa [ltChars, lt_irrefl] using ltChars_nlt_trans xs ys zs h1' h2'

/-! ## Lemmas: the descending stable sort -/

/-- The sortedness relation of the descending sort: the earlier element's
description is not below the later one's. -/
def DescGE (a b : Snapshot) : Prop := strLt a.description b.description = false

theorem insertD_perm (x : Snapshot) :
    ∀ l : List Snapshot, (insertD x l).Perm (x :: l)
  | [] => List.Perm.refl _
  | y :: ys => by
    unfold insertD
    by_cases h : strLt x.description y.description
    · rw [if_pos h]
      exact (List.Perm.cons y (insertD_perm x ys)).trans (List.Perm.swap x y ys)
    · rw [if_neg h]

theorem mem_insertD {a x : Snapshot} {l : List Snapshot} :
    a ∈ insertD x l ↔ a = x ∨ a ∈ l := by
  have := (insertD_perm x l).mem_iff (a := a)
  simpa using this

theorem pairwise_insertD (x : Snapshot) :
    ∀ l : List Snapshot, l.Pairwise DescGE → (insertD x l).Pairwise DescGE
  | [], _ => by simp [insertD, DescGE]
  | y :: ys, hp => by
    rw [List.pairwise_cons] at hp
    unfold insertD
    by_cases h : strLt x.description y.description
    · rw [if_pos h]
      rw [List.pairwise_cons]
      refine ⟨?_, pairwise_insertD x ys hp.2⟩
      intro z hz
      rcases mem_insertD.mp hz with rfl | hz'
      · exact ltChars_asymm _ _ h
      · exact hp.1 z hz'
    · rw [if_neg h]
      have hxy : DescGE x y := eq_false_of_ne_true h
      rw [List.pairwise_cons]
      refine ⟨?_, List.pairwise_cons.mpr ⟨hp.1, hp.2⟩⟩
      intro z hz
      rcases List.mem_cons.mp hz with rfl | hz'
      · exact hxy
      · exact ltChars_nlt_trans _ _ _ hxy (hp.1 z hz')

theorem sortD_perm : ∀ l : List Snapshot, (sortDescByDescription l).Perm l
  | [] => List.Perm.refl _
  | x :: xs =>
    (insertD_perm x (sortDescByDescription xs)).trans
      (List.Perm.cons x (sortD_perm xs))

theorem sortD_pairwise : ∀ l : List Snapshot,
    (sortDescByDescription l).Pairwise DescGE
  | [] => List.Pairwise.nil
  | x :: xs => pairwise_insertD x _ (sortD_pairwise xs)

theorem sortD_eq_nil_iff {l : List Snapshot} :
    sortDescByDescription l = [] ↔ l = [] := by
  constructor
  · intro h
    have := (sortD_perm l).length_eq
    rw [h] at this
    exact List.length_eq_zero.mp this.symm
  · rintro rfl
    rfl

theorem sortD_head_ge {l : List Snapshot} {s : Snapshot} {t : List Snapshot}
    (h : sortDescByDescription l = s :: t) :
    ∀ x ∈ l, strLt s.description x.description = false := by
  intro x hx
  have hx' : x ∈ s :: t := h ▸ (sortD_perm l).mem_iff.mpr hx
  rcases List.mem_cons.mp hx' with rfl | hx''
  · exact ltChars_irrefl _
  · have hp := sortD_pairwise l
    rw [h, List.pairwise_cons] at hp
    exact hp.1 x hx''

/-! ## Lemmas: the pruning rules -/

theorem ageSelect_eq_some {now retain : Int} {s : Snapshot} {i : String}
    (h : ageSelect now retain s = some i) :
    i = s.id ∧
      ∃ y m d, parseYMD (dateStrOf s) = some (y, m, d) ∧
        ageDays now y m d > retain := by
  unfold ageSelect at h
  cases hp : parseYMD (dateStrOf s) with
  | none => rw [hp] at h; cases h
  | some t =>
    obtain ⟨y, m, d⟩ := t
    rw [hp] at h
    dsimp only at h
    by_cases hc : ageDays now y m d > retain
    · rw [if_pos hc] at h
      exact ⟨(Option.some.inj h).symm, y, m, d, rfl, hc⟩
    · rw [if_neg hc] at h
      cases h

theorem mem_rule1Ids {now retain : Int} {backups : List Snapshot} {i : String} :
    i ∈ rule1Ids now retain backups ↔
      ∃ s, s ∈ backups.drop 1 ∧ ageSelect now retain s = some i := by
  unfold rule1Ids
  exact List.mem_filterMap

/-- Claim C3: for every list of snapshots (with provider-unique ids) and
every `retain_days ≥ 0` and `max_count ≥ 1`, the deletion set computed by
`prune_old_snapshots` never contains the single newest backup-prefixed
snapshot — the head of the descending sort: the age rule skips position 0
and the count rule only selects positions `≥ max_count ≥ 1`. -/
theorem c3_newest_backup_never_deleted
    (now retain_days : Int) (max_count : Nat) (snaps : List Snapshot)
    (s : Snapshot) (rest : List Snapshot)
    (hhead : sortedBackups snaps = s :: rest)
    (hnd : ((sortedBackups snaps).map Snapshot.id).Nodup)
    (_hret : 0 ≤ retain_days) (hmax : 1 ≤ max_count) :
    s.id ∉ prune_to_delete now retain_days max_count snaps := by
  intro hmem
  rw [hhead, List.map_cons, List.nodup_cons] at hnd
  rw [prune_to_delete, List.mem_append] at hmem
  rcases hmem with h1 | h2
  · rw [rule1Ids, hhead] at h1
    obtain ⟨t, ht, hsel⟩ := List.mem_filterMap.mp h1
    apply hnd.1
    rw [(ageSelect_eq_some hsel).1]
    exact List.mem_map_of_mem Snapshot.id (by simpa using ht)
  · rw [rule2Ids, hhead] at h2
    obtain ⟨t, ht, hid⟩ := List.mem_map.mp h2
    have hsub : t ∈ rest := by
      cases max_count with
      | zero => omega
      | succ k =>
        rw [List.drop_succ_cons] at ht
        exact (List.drop_sublist k rest).subset ht
    apply hnd.1
    rw [← hid]
    exact List.mem_map_of_mem Snapshot.id hsub

/-- Witness for C3 at a concrete account state. -/
theorem c3_witness :
    (⟨"n3", "Quant-Backup-20250102", "complete"⟩ : Snapshot).id ∉
      prune_to_delete (739536 * 86400) 0 1
        [⟨"o3", "Quant-Backup-20250101", "complete"⟩,
         ⟨"n3", "Quant-Backup-20250102", "complete"⟩] :=
  c3_newest_backup_never_deleted (739536 * 86400) 0 1
    [⟨"o3", "Quant-Backup-20250101", "complete"⟩,
     ⟨"n3", "Quant-Backup-20250102", "complete"⟩]
    ⟨"n3", "Quant-Backup-20250102", "complete"⟩
    [⟨"o3", "Quant-Backup-20250101", "complete"⟩]
    (by decide) (by decide) (by decide) (by decide)

/-- Claim C6: `latest_backup_snapshot` returns the id of a snapshot with
the lexicographically greatest description among the backup-prefixed
snapshots with status `"complete"`, and `None` exactly when no snapshot
matches both conditions. -/
theorem c6_latest_backup_greatest (snaps : List Snapshot) :
    (latest_backup_snapshot snaps = none ↔ backupComplete snaps = []) ∧
    (∀ i, latest_backup_snapshot snaps = some i →
      ∃ s, s ∈ backupComplete snaps ∧ s.id = i ∧
        ∀ t ∈ backupComplete snaps,
          strLt s.description t.description = false) := by
  constructor
  · unfold latest_backup_snapshot
    cases hs : sortDescByDescription (backupComplete snaps) with
    | nil => simpa using sortD_eq_nil_iff.mp hs
    | cons a t =>
      constructor
      · intro h; cases h
      · intro h
        rw [h] at hs
        cases hs
  · intro i hi
    unfold latest_backup_snapshot at hi
    cases hs : sortDescByDescription (backupComplete snaps) with
    | nil => rw [hs] at hi; cases hi
    | cons a t =>
      rw [hs] at hi
      refine ⟨a, ?_, Option.some.inj hi, sortD_head_ge hs⟩
      exact (sortD_perm _).subset (hs ▸ List.mem_cons_self a t)

/-- Witness for C6 at a concrete snapshot list. -/
theorem c6_witness :
    ∃ s, s ∈ backupComplete
        [⟨"a", "Quant-Backup-20251010", "complete"⟩,
         ⟨"b", "Quant-Backup-20251011", "pending"⟩,
         ⟨"c", "Quant-Backup-20251009", "complete"⟩] ∧
      s.id = "a" ∧
      ∀ t ∈ backupComplete
          [⟨"a", "Quant-Backup-20251010", "complete"⟩,
           ⟨"b", "Quant-Backup-20251011", "pending"⟩,
           ⟨"c", "Quant-Backup-20251009", "complete"⟩],
        strLt s.description t.description = false :=
  (c6_latest_backup_greatest
      [⟨"a", "Quant-Backup-20251010", "complete"⟩,
       ⟨"b", "Quant-Backup-20251011", "pending"⟩,
       ⟨"c", "Quant-Backup-20251009", "complete"⟩]).2 "a" (by decide)

/-- Claim C7: the two concrete retention scenarios of the spec.
Scenario 1: five daily backups `d0 > d1 > d2 > d3 > d4` (newest to
oldest), `max_count = 3`, very large `retain_days`: the deletion set is
exactly `{d3, d4}`.  Scenario 2: `e0` made today, `e1` 40 days old, `e2`
2 days old, `retain_days = 3`, `max_count = 10`: the deletion set is
exactly `{e1}`.  The instant `739536 * 86400` is midnight UTC of
2025-10-12. -/
theorem c7_retention_scenarios :
    prune_to_delete (739536 * 86400) 100000 3
      [⟨"d4", "Quant-Backup-20251007", "complete"⟩,
       ⟨"d3", "Quant-Backup-20251008", "complete"⟩,
       ⟨"d2", "Quant-Backup-20251009", "complete"⟩,
       ⟨"d1", "Quant-Backup-20251010", "complete"⟩,
       ⟨"d0", "Quant-Backup-20251011", "complete"⟩] = ["d3", "d4"] ∧
    prune_to_delete (739536 * 86400 + 3600) 3 10
      [⟨"e1", "Quant-Backup-20250902", "complete"⟩,
       ⟨"e0", "Quant-Backup-20251012", "complete"⟩,
       ⟨"e2", "Quant-Backup-20251010", "complete"⟩] = ["e1"] := by
  constructor <;> decide

/-- Counterexample to claim C8 as stated: a backup-prefixed snapshot
whose description suffix does not parse as a date (`"0abc"` has no
4-digit year) is still placed in the deletion set by the count rule when
its position is at least `max_count` — here `max_count = 1`. -/
theorem c8_counterexample :
    parseYMD (dateStrOf ⟨"b", "Quant-Backup-0abc", "complete"⟩) = none ∧
    "b" ∈ prune_to_delete 0 0 1
      [⟨"a", "Quant-Backup-20250110", "complete"⟩,
       ⟨"b", "Quant-Backup-0abc", "complete"⟩] := by
  constructor <;> decide

/-- Claim C8 (amended): a backup whose description suffix fails to parse
as a date is silently skipped by the **age rule** — every id selected by
the age rule comes from a snapshot after position 0 whose suffix parses —
and parsing failure causes no error; such a backup can still be deleted
by the count rule. -/
theorem c8_age_rule_skips_unparseable
    (now retain_days : Int) (snaps : List Snapshot) (i : String)
    (h : i ∈ rule1Ids now retain_days (sortedBackups snaps)) :
    ∃ s, s ∈ (sortedBackups snaps).drop 1 ∧ s.id = i ∧
      (parseYMD (dateStrOf s)).isSome := by
  obtain ⟨s, hs, hsel⟩ := mem_rule1Ids.mp h
  obtain ⟨hid, y, m, d, hp, _⟩ := ageSelect_eq_some hsel
  exact ⟨s, hs, hid.symm, by rw [hp]; rfl⟩

/-- Witness for the amended C8. -/
theorem c8_witness :
    ∃ s, s ∈ (sortedBackups
        [⟨"w0", "Quant-Backup-20250105", "complete"⟩,
         ⟨"w1", "Quant-Backup-20250101", "complete"⟩]).drop 1 ∧
      s.id = "w1" ∧ (parseYMD (dateStrOf s)).isSome :=
  c8_age_rule_skips_unparseable (739536 * 86400) 0
    [⟨"w0", "Quant-Backup-20250105", "complete"⟩,
     ⟨"w1", "Quant-Backup-20250101", "complete"⟩] "w1" (by decide)

/-- Claim C10: the age rule compares truncated whole days strictly: a
backup after position 0 whose suffix parses as `(y, m, d)` is selected by
the age rule exactly when `⌊(now − midnight(y,m,d)) / 86400⌋ >
retain_days`; in particular, when the current instant lies inside the day
that is exactly `retain_days` days after the embedded date, the backup is
retained by the age rule. -/
theorem c10_age_rule_strict_days
    (snaps : List Snapshot) (s : Snapshot) (y m d : Nat)
    (hmem : s ∈ (sortedBackups snaps).drop 1)
    (hnd : ((sortedBackups snaps).map Snapshot.id).Nodup)
    (hp : parseYMD (dateStrOf s) = some (y, m, d)) :
    (∀ now retain_days : Int,
      (s.id ∈ rule1Ids now retain_days (sortedBackups snaps) ↔
        ageDays now y m d > retain_days)) ∧
    (∀ retain_days r : Int, 0 ≤ r → r < 86400 →
      s.id ∉ rule1Ids
        (86400 * (toOrdinal y m d : Int) + 86400 * retain_days + r)
        retain_days (sortedBackups snaps)) := by
  have hinj := List.inj_on_of_nodup_map hnd
  have hdrop := (List.drop_sublist 1 (sortedBackups snaps)).subset
  have key : ∀ now retain_days : Int,
      s.id ∈ rule1Ids now retain_days (sortedBackups snaps) ↔
        ageDays now y m d > retain_days := by
    intro now retain
    constructor
    · intro hmem1
      obtain ⟨t, ht, hsel⟩ := mem_rule1Ids.mp hmem1
      obtain ⟨hid, y', m', d', hp', hgt⟩ := ageSelect_eq_some hsel
      have hts : t = s := hinj (hdrop ht) (hdrop hmem) hid.symm
      rw [hts, hp] at hp'
      have h3 : (y, m, d) = (y', m', d') := Option.some.inj hp'
      have h4 : y' = y ∧ m' = m ∧ d' = d := by
        simpa [Prod.ext_iff, eq_comm] using h3
      obtain ⟨rfl, rfl, rfl⟩ := h4
      exact hgt
    · intro hgt
      refine mem_rule1Ids.mpr ⟨s, hmem, ?_⟩
      unfold ageSelect
      rw [hp]
      dsimp only
      rw [if_pos hgt]
  refine ⟨key, ?_⟩
  intro retain r h0 h1
  rw [key]
  have hage : ageDays (86400 * (toOrdinal y m d : Int) + 86400 * retain + r)
      y m d = retain := by
    unfold ageDays
    have he : 86400 * (toOrdinal y m d : Int) + 86400 * retain + r -
        86400 * (toOrdinal y m d : Int) = r + 86400 * retain := by ring
    rw [he, Int.fdiv_eq_ediv _ (by norm_num),
      Int.add_mul_ediv_left r retain (by norm_num),
      Int.ediv_eq_zero_of_lt h0 h1]
    ring
  rw [hage]
  omega

/-! ## Lemmas: the request wrapper -/

theorem retryable_status {c : Nat} (h : retryable (.status c) = true) :
    ¬ (c = 200 ∨ c = 201 ∨ c = 202 ∨ c = 204) ∧ ¬ (400 ≤ c ∧ c < 500) := by
  simp [retryable] at h
  omega

theorem requestLoop_attempts_le (resps : Nat → HttpResp) (retries : Nat) :
    ∀ fuel attempt, attempt + fuel ≤ retries + 1 →
      attemptsOf (requestLoop resps retries fuel attempt).1 ≤ retries
  | 0, attempt, _ => by simp [requestLoop, attemptsOf]
  | fuel + 1, attempt, h => by
    have ih := requestLoop_attempts_le resps retries fuel (attempt + 1) (by omega)
    unfold requestLoop
    cases resps attempt with
    | status c =>
      dsimp only
      by_cases h1 : c = 200 ∨ c = 201 ∨ c = 202 ∨ c = 204
      · rw [if_pos h1]
        simp only [attemptsOf]
        omega
      · rw [if_neg h1]
        by_cases h2 : 400 ≤ c ∧ c < 500
        · rw [if_pos h2]
          simp only [attemptsOf]
          omega
        · rw [if_neg h2]
          by_cases h3 : attempt < retries
          · rw [if_pos h3]
            exact ih
          · rw [if_neg h3]
            exact ih
    | netError =>
      dsimp only
      by_cases h3 : attempt < retries
      · rw [if_pos h3]
        exact ih
      · rw [if_neg h3]
        exact ih

theorem requestLoop_all_retryable (resps : Nat → HttpResp) (retries : Nat) :
    ∀ fuel attempt, attempt + fuel = retries + 1 →
      (∀ i, attempt ≤ i → i ≤ retries → retryable (resps i) = true) →
      requestLoop resps retries fuel attempt =
        (.fatalExhausted retries,
          (List.range' attempt (retries - attempt)).map fun a => 10 * a)
  | 0, attempt, h, _ => by
    have h2 : retries - attempt = 0 := by omega
    simp [requestLoop, h2]
  | fuel + 1, attempt, h, hall => by
    have hle : attempt ≤ retries := by omega
    have hret := hall attempt le_rfl hle
    have ih := requestLoop_all_retryable resps retries fuel (attempt + 1) (by omega)
      (fun i hi1 hi2 => hall i (by omega) hi2)
    unfold requestLoop
    cases hr : resps attempt with
    | status c =>
      rw [hr] at hret
      obtain ⟨h1, h2⟩ := retryable_status hret
      dsimp only
      rw [if_neg h1, if_neg h2]
      rw [ih]
      by_cases h3 : attempt < retries
      · rw [if_pos h3]
        have h4 : retries - attempt = (retries - (attempt + 1)) + 1 := by omega
        rw [h4, List.range'_succ]
        simp
      · rw [if_neg h3]
        have h5 : retries - attempt = 0 := by omega
        have h6 : retries - (attempt + 1) = 0 := by omega
        simp [h5, h6]
    | netError =>
      dsimp only
      rw [ih]
      by_cases h3 : attempt < retries
      · rw [if_pos h3]
        have h4 : retries - attempt = (retries - (attempt + 1)) + 1 := by omega
        rw [h4, List.range'_succ]
        simp
      · rw [if_neg h3]
        have h5 : retries - attempt = 0 := by omega
        have h6 : retries - (attempt + 1) = 0 := by omega
        simp [h5, h6]

theorem requestGo_one_attempt (resps : Nat → HttpResp) :
    attemptsOf (requestGo resps 1 1).1 = 1 := by
  show attemptsOf (requestLoop resps 1 1 1).1 = 1
  unfold requestLoop
  cases resps 1 with
  | status c =>
    dsimp only
    by_cases h1 : c = 200 ∨ c = 201 ∨ c = 202 ∨ c = 204
    · rw [if_pos h1]
      rfl
    · rw [if_neg h1]
      by_cases h2 : 400 ≤ c ∧ c < 500
      · rw [if_pos h2]
        rfl
      · rw [if_neg h2]
        rw [if_neg (lt_irrefl 1)]
        rfl
  | netError =>
    dsimp only
    rw [if_neg (lt_irrefl 1)]
    rfl

/-- Claim C4: POST and PATCH requests are attempted exactly once
regardless of the configured retry count; GET and DELETE requests are
attempted at most the configured count of times, and when every response
is retryable they are attempted exactly `retries` times (with a sleep of
`10 * attempt` seconds between consecutive attempts) before failing
fatally. -/
theorem c4_retry_policy (resps resps2 : Nat → HttpResp) (r : Nat)
    (hall : ∀ i, 1 ≤ i → i ≤ r → retryable (resps2 i) = true) :
    attemptsOf (pyRequest "POST" resps r).1 = 1 ∧
    attemptsOf (pyRequest "PATCH" resps r).1 = 1 ∧
    attemptsOf (pyRequest "GET" resps r).1 ≤ r ∧
    attemptsOf (pyRequest "DELETE" resps r).1 ≤ r ∧
    pyRequest "GET" resps2 r =
      (.fatalExhausted r, (List.range' 1 (r - 1)).map fun a => 10 * a) := by
  have hpost : pyRequest "POST" resps r = requestGo resps 1 1 := by
    unfold pyRequest
    rw [if_pos (Or.inl (by decide))]
  have hpatch : pyRequest "PATCH" resps r = requestGo resps 1 1 := by
    unfold pyRequest
    rw [if_pos (Or.inr (by decide))]
  have hget : ∀ resps' : Nat → HttpResp,
      pyRequest "GET" resps' r = requestGo resps' r 1 := by
    intro resps'
    unfold pyRequest
    rw [if_neg (by decide)]
  have hdel : pyRequest "DELETE" resps r = requestGo resps r 1 := by
    unfold pyRequest
    rw [if_neg (by decide)]
  have he : r + 1 - 1 = r := by omega
  refine ⟨?_, ?_, ?_, ?_, ?_⟩
  · rw [hpost]
    exact requestGo_one_attempt resps
  · rw [hpatch]
    exact requestGo_one_attempt resps
  · rw [hget]
    unfold requestGo
    exact requestLoop_attempts_le resps r (r + 1 - 1) 1 (by omega)
  · rw [hdel]
    unfold requestGo
    exact requestLoop_attempts_le resps r (r + 1 - 1) 1 (by omega)
  · rw [hget]
    unfold requestGo
    rw [he]
    exact requestLoop_all_retryable resps2 r r 1 (by omega) hall

/-- Witness for C4: a server that always answers HTTP 500. -/
theorem c4_witness :
    attemptsOf (pyRequest "POST" (fun _ => .status 500) 3).1 = 1 ∧
    attemptsOf (pyRequest "PATCH" (fun _ => .status 500) 3).1 = 1 ∧
    attemptsOf (pyRequest "GET" (fun _ => .status 500) 3).1 ≤ 3 ∧
    attemptsOf (pyRequest "DELETE" (fun _ => .status 500) 3).1 ≤ 3 ∧
    pyRequest "GET" (fun _ => .status 500) 3 =
      (.fatalExhausted 3, (List.range' 1 (3 - 1)).map fun a => 10 * a) :=
  c4_retry_policy (fun _ => .status 500) (fun _ => .status 500) 3
    (fun _ _ _ => rfl)

/-- Claim C5: a 4xx response terminates the loop immediately and fatally
on whatever attempt it occurs (no further attempts, no back-off sleep),
whereas a retryable response (any status outside {200, 201, 202, 204}
and outside 4xx, or a network error) merely advances the loop to the
next attempt, consuming one unit of the retry budget. -/
theorem c5_client_error_fatal
    (resps : Nat → HttpResp) (retries attempt c : Nat)
    (_h1 : 1 ≤ attempt) (h2 : attempt ≤ retries)
    (hc : resps attempt = .status c) (hc1 : 400 ≤ c) (hc2 : c < 500)
    (resps2 : Nat → HttpResp) (retries2 attempt2 : Nat)
    (h3 : attempt2 ≤ retries2) (hr : retryable (resps2 attempt2) = true) :
    requestGo resps retries attempt = (.fatalClient attempt, []) ∧
    (requestGo resps2 retries2 attempt2).1 =
      (requestGo resps2 retries2 (attempt2 + 1)).1 := by
  constructor
  · unfold requestGo
    have he : retries + 1 - attempt = (retries - attempt) + 1 := by omega
    rw [he]
    unfold requestLoop
    have hn1 : ¬ (c = 200 ∨ c = 201 ∨ c = 202 ∨ c = 204) := by omega
    rw [hc]
    dsimp only
    rw [if_neg hn1, if_pos (show 400 ≤ c ∧ c < 500 from ⟨hc1, hc2⟩)]
  · unfold requestGo
    have e1 : retries2 + 1 - attempt2 = (retries2 - attempt2) + 1 := by omega
    have e2 : retries2 + 1 - (attempt2 + 1) = retries2 - attempt2 := by omega
    rw [e1, e2]
    conv_lhs => rw [requestLoop]
    cases hr2 : resps2 attempt2 with
    | status c2 =>
      rw [hr2] at hr
      obtain ⟨g1, g2⟩ := retryable_status hr
      dsimp only
      rw [if_neg g1, if_neg g2]
      by_cases h4 : attempt2 < retries2
      · rw [if_pos h4]
      · rw [if_neg h4]
    | netError =>
      dsimp only
      by_cases h4 : attempt2 < retries2
      · rw [if_pos h4]
      · rw [if_neg h4]

/-- Witness for C5: a 404 on the second of three attempts, and a network
error consuming the first attempt. -/
theorem c5_witness :
    requestGo (fun _ => .status 404) 3 2 = (.fatalClient 2, []) ∧
    (requestGo (fun _ => .netError) 3 1).1 =
      (requestGo (fun _ => .netError) 3 2).1 :=
  c5_client_error_fatal (fun _ => .status 404) 3 2 404 (by decide) (by decide)
    rfl (by decide) (by decide) (fun _ => .netError) 3 1 (by decide) rfl

/-- Witness for C10. -/
theorem c10_witness :
    (⟨"p1", "Quant-Backup-20250101", "complete"⟩ : Snapshot).id ∈
        rule1Ids (739536 * 86400) 5
          (sortedBackups
            [⟨"p0", "Quant-Backup-20250105", "complete"⟩,
             ⟨"p1", "Quant-Backup-20250101", "complete"⟩]) ↔
      ageDays (739536 * 86400) 2025 1 1 > 5 :=
  (c10_age_rule_strict_days
      [⟨"p0", "Quant-Backup-20250105", "complete"⟩,
       ⟨"p1", "Quant-Backup-20250101", "complete"⟩]
      ⟨"p1", "Quant-Backup-20250101", "complete"⟩ 2025 1 1
      (by decide) (by decide) (by decide)).1 (739536 * 86400) 5

/-! ## Lemmas: the poll loops and the orchestration actions -/

theorem waitSnap_outcome (polls : List PollStep) :
    (wait_for_snapshot polls).1 = Outcome.ok () ∨
      (wait_for_snapshot polls).1 = Outcome.raised ExcKind.systemExit := by
  induction polls with
  | nil => right; rfl
  | cons p rest ih =>
    cases p with
    | reqFail => right; rfl
    | st st0 =>
      by_cases h1 : st0 = "complete"
      · left; simp [wait_for_snapshot, h1]
      · by_cases h2 : st0 = "error"
        · right; simp [wait_for_snapshot, h1, h2]
        · simpa [wait_for_snapshot, h1, h2] using ih

theorem waitSnap_ok_complete (polls : List PollStep)
    (h : (wait_for_snapshot polls).1 = Outcome.ok ()) :
    "complete" ∈ (wait_for_snapshot polls).2 := by
  induction polls with
  | nil => simp [wait_for_snapshot] at h
  | cons p rest ih =>
    cases p with
    | reqFail => simp [wait_for_snapshot] at h
    | st st0 =>
      by_cases h1 : st0 = "complete"
      · subst h1; simp [wait_for_snapshot]
      · by_cases h2 : st0 = "error"
        · simp [wait_for_snapshot, h1, h2] at h
        · have h3 := ih (by simpa [wait_for_snapshot, h1, h2] using h)
          simp [wait_for_snapshot, h1, h2]
          right
          exact h3

/-- The shape of the `action_stop` event trace on the successful-wait
path: the destroy call follows the whole poll trace, whatever the prune
outcome; the trailing events are pruning and (possibly) completion. -/
theorem action_stop_trace_ok (insts : List Instance) (inst : Instance)
    (polls : List PollStep) (prune : Outcome Unit)
    (hfi : find_instance insts = some inst)
    (hw : (wait_for_snapshot polls).1 = Outcome.ok ()) :
    ∃ tail, (action_stop insts true polls prune).2 =
      (Ev.listInstances :: Ev.createSnapshotCall ::
        (wait_for_snapshot polls).2.map Ev.snapPoll) ++
        Ev.destroyCall inst.id :: tail ∧
      ∀ e ∈ tail, e = Ev.pruneCall ∨ e = Ev.stopComplete := by
  rcases prune with u | ek
  · refine ⟨[Ev.pruneCall, Ev.stopComplete], ?_, ?_⟩
    · simp [action_stop, hfi, hw]
    · intro e he
      simpa using he
  · cases ek with
    | systemExit =>
      refine ⟨[Ev.pruneCall], ?_, ?_⟩
      · simp [action_stop, hfi, hw]
      · intro e he
        left
        simpa using he
    | exception =>
      refine ⟨[Ev.pruneCall, Ev.stopComplete], ?_, ?_⟩
      · simp [action_stop, hfi, hw]
      · intro e he
        simpa using he

/-- Claim C1: in `action_stop` the destroy call is issued only after
`wait_for_snapshot` has returned normally, which happens only after a
poll observed status `"complete"` — the trace decomposes with a
`"complete"` poll strictly before the destroy call; and whenever the
wait does not return normally (an observed `"error"`, a fatal poll
request, or deadline expiry), the run fails fatally and no destroy call
ever appears in the trace. -/
theorem c1_destroy_only_after_complete (insts : List Instance)
    (createOk : Bool) (polls : List PollStep) (prune : Outcome Unit) :
    (∀ i, Ev.destroyCall i ∈ (action_stop insts createOk polls prune).2 →
      (wait_for_snapshot polls).1 = Outcome.ok () ∧
      ∃ pre post, (action_stop insts createOk polls prune).2 =
        pre ++ Ev.destroyCall i :: post ∧ Ev.snapPoll "complete" ∈ pre) ∧
    ((wait_for_snapshot polls).1 ≠ Outcome.ok () →
      (action_stop insts createOk polls prune).1 =
        Outcome.raised ExcKind.systemExit ∧
      ∀ i, Ev.destroyCall i ∉ (action_stop insts createOk polls prune).2) := by
  cases hfi : find_instance insts with
  | none =>
    constructor
    · intro i hi
      simp [action_stop, hfi] at hi
    · intro _
      constructor
      · simp [action_stop, hfi]
      · intro i
        simp [action_stop, hfi]
  | some inst =>
    cases createOk with
    | false =>
      constructor
      · intro i hi
        simp [action_stop, hfi] at hi
      · intro _
        constructor
        · simp [action_stop, hfi]
        · intro i
          simp [action_stop, hfi]
    | true =>
      rcases waitSnap_outcome polls with hw | hw
      · have hc := waitSnap_ok_complete polls hw
        obtain ⟨tail, htr, htail⟩ :=
          action_stop_trace_ok insts inst polls prune hfi hw
        constructor
        · intro i hi
          rw [htr] at hi
          have hid : i = inst.id := by
            rcases List.mem_append.mp hi with h0 | h0
            · simp at h0
            · rcases List.mem_cons.mp h0 with h0 | h0
              · exact Ev.destroyCall.inj h0
              · rcases htail _ h0 with h | h <;> simp at h
          subst hid
          refine ⟨hw, Ev.listInstances :: Ev.createSnapshotCall ::
            (wait_for_snapshot polls).2.map Ev.snapPoll, tail, htr, ?_⟩
          simp only [List.mem_cons]
          right; right
          exact List.mem_map_of_mem Ev.snapPoll hc
        · intro hne
          exact absurd hw hne
      · have htr : action_stop insts true polls prune =
            (Outcome.raised ExcKind.systemExit,
              Ev.listInstances :: Ev.createSnapshotCall ::
                (wait_for_snapshot polls).2.map Ev.snapPoll) := by
          simp [action_stop, hfi, hw]
        constructor
        · intro i hi
          rw [htr] at hi
          simp at hi
        · intro _
          rw [htr]
          constructor
          · rfl
          · intro i
            simp

/-- Witness for C1: a live instance, a pending poll then a complete
poll, pruning succeeding. -/
theorem c1_witness :
    (wait_for_snapshot [PollStep.st "pending", PollStep.st "complete"]).1 =
      Outcome.ok () ∧
    ∃ pre post,
      (action_stop
          [⟨"i1", "Quant-Trading-Server", "active", "running", "1.2.3.4"⟩]
          true [PollStep.st "pending", PollStep.st "complete"]
          (Outcome.ok ())).2 = pre ++ Ev.destroyCall "i1" :: post ∧
      Ev.snapPoll "complete" ∈ pre :=
  (c1_destroy_only_after_complete
      [⟨"i1", "Quant-Trading-Server", "active", "running", "1.2.3.4"⟩]
      true [PollStep.st "pending", PollStep.st "complete"]
      (Outcome.ok ())).1 "i1" (by decide)

/-- Claim C2 (refuted by the code, confirming the spec's intent): a
fatal request failure inside `prune_old_snapshots` — here the snapshot
listing request answered with HTTP 400, making `_request` raise
`SystemExit(1)` — escapes `except Exception` (in Python `SystemExit`
derives from `BaseException`, not `Exception`), so `action_stop` aborts
after the prune call instead of running to successful completion: the
final outcome is the propagated `SystemExit` and the completion event is
never reached, contradicting the claimed best-effort behaviour. -/
theorem c2_prune_system_exit_aborts_stop :
    prune_request_outcome (fun _ => HttpResp.status 400) 3 =
      Outcome.raised ExcKind.systemExit ∧
    action_stop
        [⟨"i1", "Quant-Trading-Server", "active", "running", "1.2.3.4"⟩]
        true [PollStep.st "complete"]
        (prune_request_outcome (fun _ => HttpResp.status 400) 3) =
      (Outcome.raised ExcKind.systemExit,
        [Ev.listInstances, Ev.createSnapshotCall, Ev.snapPoll "complete",
         Ev.destroyCall "i1", Ev.pruneCall]) ∧
    Ev.stopComplete ∉
      (action_stop
          [⟨"i1", "Quant-Trading-Server", "active", "running", "1.2.3.4"⟩]
          true [PollStep.st "complete"]
          (prune_request_outcome (fun _ => HttpResp.status 400) 3)).2 ∧
    (action_stop
        [⟨"i1", "Quant-Trading-Server", "active", "running", "1.2.3.4"⟩]
        true [PollStep.st "complete"] (Outcome.raised ExcKind.exception)).1 =
      Outcome.ok () := by
  refine ⟨by decide, by decide, by decide, by decide⟩

/-- Claim C9: when the instance list contains a live labelled instance,
`action_start` returns successfully having made only the listing call:
no creation call and no state-mutating call at all appears in the
trace. -/
theorem c9_start_no_create_when_live (insts : List Instance)
    (instPolls : List (String × String))
    (h : ∃ i ∈ insts, i.label = LABEL ∧ i.status ≠ "dead") :
    action_start insts instPolls = (Outcome.ok (), [Ev.listInstances]) ∧
    ∀ e ∈ (action_start insts instPolls).2, isMutating e = false := by
  have hfs : (find_instance insts).isSome := by
    apply List.find?_isSome.mpr
    obtain ⟨i, hi, h1, h2⟩ := h
    exact ⟨i, hi, by simp [h1, h2]⟩
  cases hfi : find_instance insts with
  | none =>
    rw [hfi] at hfs
    simp at hfs
  | some inst =>
    have ht : action_start insts instPolls = (Outcome.ok (), [Ev.listInstances]) := by
      simp [action_start, hfi]
    refine ⟨ht, ?_⟩
    rw [ht]
    intro e he
    simp only [List.mem_singleton] at he
    subst he
    rfl

/-- Witness for C9: one live labelled instance. -/
theorem c9_witness :
    action_start
        [⟨"i9", "Quant-Trading-Server", "active", "running", "10.0.0.9"⟩]
        [] = (Outcome.ok (), [Ev.listInstances]) ∧
    ∀ e ∈ (action_start
        [⟨"i9", "Quant-Trading-Server", "active", "running", "10.0.0.9"⟩]
        []).2, isMutating e = false :=
  c9_start_no_create_when_live
    [⟨"i9", "Quant-Trading-Server", "active", "running", "10.0.0.9"⟩]
    [] (by decide)

end Vultr

